/-
Verification of the giphy_proxy HTTP engine: a shallow embedding of the
message grammar, the byte-stream request parser, the response writer, the
connection-server error mapping, and the CONNECT tunnel handler, together
with theorems about them.

Bytes are modelled as `Nat` (the parser checks `< 128` exactly where the
source checks `is_ascii`). Strings on the relevant paths are ASCII, so
Rust byte lengths coincide with Lean character lengths whenever a length
is compared.
-/
import Mathlib

deriving instance DecidableEq for Except

namespace GiphyProxy

/-- The nine HTTP verbs (src/http/src/request.rs, enum Method). -/
inductive Method
  | GET | POST | PUT | HEAD | DELETE | CONNECT | OPTIONS | TRACE | PATCH
deriving DecidableEq

/-- The three HTTP versions (src/http/src/common.rs, enum HttpVersion). -/
inductive HttpVersion
  | http1_0 | http1_1 | http2_0
deriving DecidableEq

/-- Error kinds (src/http/src/error.rs, enum Error). The IO variant carries
the opaque debug rendering of the wrapped io::Error. -/
inductive Error
  | invalidMethod (s : String)
  | invalidEncoding
  | notImplemented
  | ioError (dbg : String)
  | startLineExceedsMaxLength
  | unexpectedEndOfStream
  | headersSectionTooLong
  | headerTooLong
  | invalidHeader
  | invalidHttpVersion
  | invalidStartLine
  | invalidTarget
  | unexpectedCR
  | noBindAddress
  | connectionClosed
  | missingPort
  | dnsLookupFailed
deriving DecidableEq

/-!
Kernel-computable string helpers. These mirror the Rust standard-library
operations the source calls (`str::split` with a one-character separator,
`str::trim`, `u16::from_str_radix`), implemented by structural recursion
on the character list so that concrete runs reduce inside the kernel.
-/

/-- `str::split(sep)` on the character list: every occurrence of the
separator starts a new field, so consecutive separators produce empty
fields and the empty input produces one empty field. -/
def splitChars (sep : Char) : List Char → List (List Char)
  | [] => [[]]
  | c :: rest =>
    let r := splitChars sep rest
    if c = sep then [] :: r
    else
      match r with
      | [] => [[c]]
      | g :: gs => (c :: g) :: gs

/-- `str::split(sep)` lifted back to strings. -/
def splitOnChar (sep : Char) (s : String) : List String :=
  (splitChars sep s.toList).map String.mk

/-- `char::is_whitespace` restricted to ASCII: space and the controls
0x09 to 0x0d. The parser admits only ASCII bytes, so this is the whole of
the whitespace the source can see. -/
def isRustWhitespace (c : Char) : Bool :=
  c = ' ' || (9 ≤ c.toNat && c.toNat ≤ 13)

/-- `str::trim`: drop whitespace from both ends. -/
def trimAscii (s : String) : String :=
  String.mk (((s.toList.dropWhile isRustWhitespace).reverse.dropWhile
    isRustWhitespace).reverse)

/-- `Method::parse` (request.rs lines 30-43): exact match against the nine
verbs, otherwise `InvalidMethod` carrying the original string. -/
def Method.parse (data : String) : Except Error Method :=
  if data = "GET" then .ok .GET
  else if data = "POST" then .ok .POST
  else if data = "PUT" then .ok .PUT
  else if data = "HEAD" then .ok .HEAD
  else if data = "DELETE" then .ok .DELETE
  else if data = "CONNECT" then .ok .CONNECT
  else if data = "OPTIONS" then .ok .OPTIONS
  else if data = "TRACE" then .ok .TRACE
  else if data = "PATCH" then .ok .PATCH
  else .error (.invalidMethod data)

/-- Modelled from the spec: the source has no formatter for `Method`; the
spec demands that parse and format be exact literal inverses, so format
maps each verb to its literal verb string. -/
def Method.format : Method → String
  | .GET => "GET"
  | .POST => "POST"
  | .PUT => "PUT"
  | .HEAD => "HEAD"
  | .DELETE => "DELETE"
  | .CONNECT => "CONNECT"
  | .OPTIONS => "OPTIONS"
  | .TRACE => "TRACE"
  | .PATCH => "PATCH"

/-- `HttpVersion::parse` (common.rs lines 13-20). -/
def HttpVersion.parse (data : String) : Except Error HttpVersion :=
  if data = "HTTP/1.0" then .ok .http1_0
  else if data = "HTTP/1.1" then .ok .http1_1
  else if data = "HTTP/2.0" then .ok .http2_0
  else .error .invalidHttpVersion

/-- The `Display` impl for `HttpVersion` (common.rs lines 23-33). -/
def HttpVersion.format : HttpVersion → String
  | .http1_0 => "HTTP/1.0"
  | .http1_1 => "HTTP/1.1"
  | .http2_0 => "HTTP/2.0"

/-- `Headers::parse_header` (common.rs lines 44-55): split on every colon,
keep the first two fields; error when the second field is absent or either
of the first two fields is empty before trimming; trim both on success. -/
def Headers.parse_header (data : String) : Except Error (String × String) :=
  match splitOnChar ':' data with
  | key :: val :: _ =>
    if key = "" ∨ val = "" then .error .invalidHeader
    else .ok (trimAscii key, trimAscii val)
  | _ => .error .invalidHeader

/-- Opaque result of the external absolute-URL parse capability. -/
structure UrlData where
  raw : String
deriving DecidableEq

/-- `Authority` (request.rs lines 48-51). The port is a 16-bit value; the
parser range-checks it, so `Nat` suffices here. -/
structure Authority where
  domain : String
  port : Option Nat
deriving DecidableEq

/-- `Target` (request.rs lines 96-111). -/
inductive Target
  | path (s : String)
  | url (u : UrlData)
  | authority (a : Authority)
  | glob
deriving DecidableEq

/-- ASCII letter or digit, as matched by `(\d|[[:alpha:]])` in the
authority regex of `Target::parse`. -/
def isAlnumAscii (c : Char) : Bool := c.isAlpha || c.isDigit

/-- One dot-separated label of the authority regex: nonempty, alphanumeric. -/
def labelOk (l : List Char) : Bool := (!(l = [])) && l.all isAlnumAscii

/-- The host part of the authority regex `((\d|[[:alpha:]])+\.)+(\d|[[:alpha:]])+`:
at least two labels separated by dots, each nonempty and alphanumeric. -/
def hostOk (h : List Char) : Bool :=
  let ls := splitChars '.' h
  decide (2 ≤ ls.length) && ls.all labelOk

/-- The full-anchor authority regex of `Target::parse` (request.rs line 133):
`^((\d|[[:alpha:]])+\.)+(\d|[[:alpha:]])+(:\d+)?$`. At most one colon may
appear, followed by one or more digits running to the end. -/
def authorityRegexMatch (s : String) : Bool :=
  match splitChars ':' s.toList with
  | [h] => hostOk h
  | [h, p] => hostOk h && (!(p = [])) && p.all Char.isDigit
  | _ => false

/-- `u16::from_str_radix(digits, 10)` on a digit list: one or more decimal
digits, value at most 65535. -/
def u16FromDigits (l : List Char) : Option Nat :=
  if l = [] then none
  else if !(l.all Char.isDigit) then none
  else
    let n := l.foldl (fun acc c => acc * 10 + (c.toNat - 48)) 0
    if n ≤ 65535 then some n else none

/-- `u16::from_str_radix(s, 10)`: optional leading plus sign, then one or
more decimal digits, value at most 65535. -/
def u16FromStr (s : String) : Option Nat :=
  match s.toList with
  | '+' :: rest => u16FromDigits rest
  | l => u16FromDigits l

/-- `Target::parse` (request.rs lines 114-156), parametrised by the opaque
absolute-URL parse capability `up`. The source inspects the first
character, so the empty, path and glob cases are a match on the character
list. -/
def Target.parse (up : String → Option UrlData) (target_str : String) :
    Except Error Target :=
  match target_str.toList with
  | [] => .error .invalidTarget
  | c :: rest =>
    if c = '/' then .ok (.path target_str)
    else if c = '*' then
      if rest = [] then .ok .glob else .error .invalidTarget
    else if authorityRegexMatch target_str then
      match splitOnChar ':' target_str with
      | [] => .error .invalidTarget
      | domain :: restSplits =>
        match restSplits.head? with
        | some p =>
          match u16FromStr p with
          | some n => .ok (.authority ⟨domain, some n⟩)
          | none => .error .invalidTarget
        | none => .ok (.authority ⟨domain, none⟩)
    else
      match up target_str with
      | some u => .ok (.url u)
      | none => .error .invalidTarget

/-- `StartLine` (request.rs lines 160-164). -/
structure StartLine where
  method : Method
  target : Target
  version : HttpVersion
deriving DecidableEq

/-- `StartLine::parse` (request.rs lines 167-179): split on single spaces,
take the first three fields in order (further fields are ignored), fail
with `InvalidStartLine` when a field is missing. -/
def StartLine.parse (up : String → Option UrlData) (data : String) :
    Except Error StartLine :=
  match splitOnChar ' ' data with
  | [] => .error .invalidStartLine
  | m :: rest =>
    match Method.parse m with
    | .error e => .error e
    | .ok method =>
      match rest with
      | [] => .error .invalidStartLine
      | t :: rest2 =>
        match Target.parse up t with
        | .error e => .error e
        | .ok target =>
          match rest2 with
          | [] => .error .invalidStartLine
          | v :: _ =>
            match HttpVersion.parse v with
            | .error e => .error e
            | .ok version => .ok ⟨method, target, version⟩

/-- `ParseOptions` (request.rs lines 55-61). -/
structure ParseOptions where
  max_target_len : Nat
  max_headers_section_len : Nat
  max_header_len : Nat
  max_body_len : Nat
deriving DecidableEq

/-- The `Default` impl for `ParseOptions` (request.rs lines 63-72). -/
def ParseOptions.default : ParseOptions :=
  ⟨16 * 1024, 16 * 1024, 1024, 2 * 1024 * 1024⟩

/-- `ParseOptions::max_start_line_len` (request.rs lines 76-82):
max target length plus 7 ("OPTIONS") plus 2 spaces plus 8 ("HTTP/1.1"). -/
def ParseOptions.max_start_line_len (o : ParseOptions) : Nat :=
  o.max_target_len + 7 + 2 + 8

/-- `Request` (request.rs lines 183-186); the header map is modelled as an
association list with overwrite-on-insert. -/
structure Request where
  start_line : StartLine
  headers : List (String × String)
deriving DecidableEq

/-- `HashMap::insert` on the association-list model: overwrite the value
under an existing key, otherwise append. -/
def insertHeader (k v : String) : List (String × String) → List (String × String)
  | [] => [(k, v)]
  | (k1, v1) :: rest =>
    if k1 = k then (k, v) :: rest else (k1, v1) :: insertHeader k v rest

/-- `RequestParseStateMachine` (request.rs lines 188-191). The first field
of the headers state is the byte counter for the headers section. -/
inductive RPState
  | parseStartLine
  | parseHeaders (size : Nat) (sl : StartLine) (hs : List (String × String))

/-- The limit check run on every iteration before the byte is appended
(request.rs lines 218-231), on the line accumulated so far. -/
def limitCheck (opts : ParseOptions) (state : RPState) (currentLine : List Nat) :
    Option Error :=
  match state with
  | .parseStartLine =>
    if currentLine.length > opts.max_start_line_len then
      some .startLineExceedsMaxLength
    else none
  | .parseHeaders size _ _ =>
    if opts.max_headers_section_len < size + currentLine.length then
      some .headersSectionTooLong
    else if currentLine.length > opts.max_header_len then
      some .headerTooLong
    else none

/-- Decode an accumulated line of ASCII bytes as text, as the unchecked
utf8 view at request.rs line 257 does. -/
def lineToString (line : List Nat) : String :=
  String.mk (line.map Char.ofNat)

/-- Outcome of interpreting one terminated line. -/
inductive LineStep
  | done (r : Request)
  | next (st : RPState)
  | fail (e : Error)

/-- The line-terminator handling of `Request::parse` (request.rs lines
259-290): in the start-line state parse a `StartLine` and move to the
headers state with a zero counter; in the headers state an empty line
completes the request, a nonempty line is parsed as a header and inserted.
The section counter `size` is passed through unchanged, exactly as the
source does at request.rs line 288. -/
def stepLine (up : String → Option UrlData) (state : RPState) (line : List Nat) :
    LineStep :=
  let s := lineToString line
  match state with
  | .parseStartLine =>
    match StartLine.parse up s with
    | .error e => .fail e
    | .ok sl => .next (.parseHeaders 0 sl [])
  | .parseHeaders size sl hs =>
    if s.length = 0 then .done ⟨sl, hs⟩
    else
      match Headers.parse_header s with
      | .error e => .fail e
      | .ok (k, v) => .next (.parseHeaders size sl (insertHeader k v hs))

/-- The read loop of `Request::parse` (request.rs lines 210-296), one byte
per iteration: empty stream fails; the limit check runs before anything
else on the byte; non-ASCII bytes fail; a CR must be immediately followed
by LF (stream end fails, any other byte is `UnexpectedCR`); a terminator
hands the accumulated line to `stepLine`; any other byte is appended. -/
def Request.parseLoop (up : String → Option UrlData) (opts : ParseOptions)
    (state : RPState) (currentLine : List Nat) :
    List Nat → Except Error Request
  | [] => .error .unexpectedEndOfStream
  | [b] =>
    match limitCheck opts state currentLine with
    | some e => .error e
    | none =>
      if b ≥ 128 then .error .invalidEncoding
      else if b = 13 then
        -- the follow-up read of the LF finds the stream empty
        .error .unexpectedEndOfStream
      else if b = 10 then
        match stepLine up state currentLine with
        | .fail e => .error e
        | .done r => .ok r
        | .next st => Request.parseLoop up opts st [] []
      else
        -- the byte is appended and the next read finds the stream empty
        Request.parseLoop up opts state (currentLine ++ [b]) []
  | b :: b2 :: rest2 =>
    match limitCheck opts state currentLine with
    | some e => .error e
    | none =>
      if b ≥ 128 then .error .invalidEncoding
      else if b = 13 then
        if b2 = 10 then
          match stepLine up state currentLine with
          | .fail e => .error e
          | .done r => .ok r
          | .next st => Request.parseLoop up opts st [] rest2
        else .error .unexpectedCR
      else if b = 10 then
        match stepLine up state currentLine with
        | .fail e => .error e
        | .done r => .ok r
        | .next st => Request.parseLoop up opts st [] (b2 :: rest2)
      else Request.parseLoop up opts state (currentLine ++ [b]) (b2 :: rest2)

/-- `Request::parse` (request.rs lines 201-297): run the loop from the
start-line state with an empty line buffer. -/
def Request.parse (up : String → Option UrlData) (opts : ParseOptions)
    (data : List Nat) : Except Error Request :=
  Request.parseLoop up opts .parseStartLine [] data

/-- A URL capability that always fails; the claims under study never reach
the absolute-URL branch. -/
def upNone : String → Option UrlData := fun _ => none

/-- ASCII string to byte list; on the ASCII strings used here this equals
the utf8 bytes the source writes. -/
def strBytes (s : String) : List Nat :=
  s.toList.map Char.toNat

/-- `Status` (src/http/src/response.rs lines 76-85). -/
inductive Status
  | ok | badRequest | methodNotAllowed | requestHeaderFieldsTooLarge
  | uriTooLong | badGateway
deriving DecidableEq

/-- `Status::to_u16` (response.rs lines 88-97). -/
def Status.to_u16 : Status → Nat
  | .ok => 200
  | .methodNotAllowed => 405
  | .badRequest => 400
  | .requestHeaderFieldsTooLarge => 431
  | .uriTooLong => 414
  | .badGateway => 502

/-- `Status::to_str` (response.rs lines 99-108). -/
def Status.to_str : Status → String
  | .ok => "OK"
  | .methodNotAllowed => "Method Not Allowed"
  | .badRequest => "Bad Request"
  | .requestHeaderFieldsTooLarge => "Request Header Fields Too Large"
  | .uriTooLong => "URI Too Long"
  | .badGateway => "Bad Gateway"

/-- `Response` (response.rs lines 18-23). Every response the program
builds uses a `Cursor` body, so the lazy byte source is modelled by the
byte list it will yield; a cursor read fills at most the 128-byte buffer
and yields zero bytes once the list is drained. Headers are the
association list in write order. -/
structure Response where
  status : Status
  http_version : HttpVersion
  headers : List (String × String)
  body : List Nat
deriving DecidableEq

/-- The body drain loop of `Response::write_to_stream` (response.rs lines
43-53): each iteration allocates a fresh zeroed 128-byte buffer, the
cursor read fills its first `min 128 remaining` bytes, and the source
then writes the whole buffer (`s.write(&data)`), not just the bytes
read — so a final partial chunk goes out zero-padded to 128 bytes. -/
def bodyChunksF : Nat → List Nat → List (List Nat)
  | _, [] => []
  | 0, _ :: _ => []
  | fuel + 1, b :: bs =>
    ((b :: bs).take 128 ++ List.replicate (128 - (b :: bs).length) 0)
      :: bodyChunksF fuel ((b :: bs).drop 128)

/-- The chunk list for a full drain: fuel one length is always enough,
since every round consumes at least one byte. -/
def bodyChunks (bs : List Nat) : List (List Nat) :=
  bodyChunksF bs.length bs

/-- `Response::write_to_stream` (response.rs lines 26-56) as the byte
sequence put on the wire: the status line, each header as
`<key>:<value>CRLF`, a blank line, then the drained body chunks. -/
def Response.write_to_stream (r : Response) : List Nat :=
  strBytes (r.http_version.format ++ " ")
    ++ strBytes (toString r.status.to_u16 ++ " ")
    ++ strBytes (r.status.to_str ++ "\r\n")
    ++ (r.headers.map (fun kv => strBytes (kv.1 ++ ":" ++ kv.2 ++ "\r\n"))).flatten
    ++ strBytes "\r\n"
    ++ (bodyChunks r.body).flatten

/-- `Response::error_response` (response.rs lines 67-72): HTTP/1.1, one
Content-length header holding the byte length of the message, the message
as the body. -/
def Response.error_response (status : Status) (message : String) : Response :=
  ⟨status, .http1_1, [("Content-length", toString message.length)],
    strBytes message⟩

/-- Hexadecimal rendering of a code point, as in the `\u` escapes of
`char::escape_debug`. -/
def hexOfNat (n : Nat) : String :=
  String.mk (Nat.toDigits 16 n)

/-- `char::escape_debug` for one character inside a string literal, on the
ASCII range the parser admits: tab, CR, LF, NUL, backslash and quote get
two-character escapes, remaining controls (and 0x7f) a `\u` escape, and
every other character stands for itself. -/
def escapeDebugChar (c : Char) : String :=
  if c = '\t' then "\\t"
  else if c = '\r' then "\\r"
  else if c = '\n' then "\\n"
  else if c = '\\' then "\\\\"
  else if c = '"' then "\\\""
  else if c.toNat = 0 then "\\0"
  else if c.toNat < 32 ∨ c.toNat = 127 then
    "\\u\x7b" ++ hexOfNat c.toNat ++ "\x7d"
  else String.mk [c]

/-- The `Debug` rendering of a Rust `String` field: quoted, with
`escape_debug` applied to each character. -/
def rustDebugString (s : String) : String :=
  "\"" ++ String.join (s.toList.map escapeDebugChar) ++ "\""

/-- The derived `Debug` rendering of `Error` (error.rs), which is also its
`Display` because the `Display` impl at error.rs lines 73-77 writes the
debug form. -/
def errorDescription : Error → String
  | .invalidMethod s => "InvalidMethod(" ++ rustDebugString s ++ ")"
  | .invalidEncoding => "InvalidEncoding"
  | .notImplemented => "NotImplemented"
  | .ioError dbg => "IOError(IOErrorWrapper \x7b err: " ++ dbg ++ " \x7d)"
  | .startLineExceedsMaxLength => "StartLineExceedsMaxLength"
  | .unexpectedEndOfStream => "UnexpectedEndOfStream"
  | .headersSectionTooLong => "HeadersSectionTooLong"
  | .headerTooLong => "HeaderTooLong"
  | .invalidHeader => "InvalidHeader"
  | .invalidHttpVersion => "InvalidHttpVersion"
  | .invalidStartLine => "InvalidStartLine"
  | .invalidTarget => "InvalidTarget"
  | .unexpectedCR => "UnexpectedCR"
  | .noBindAddress => "NoBindAddress"
  | .connectionClosed => "ConnectionClosed"
  | .missingPort => "MissingPort"
  | .dnsLookupFailed => "DnsLookupFailed"

/-- The parse-failure arm of `HttpServer::run` (src/http/src/server.rs
lines 119-124): choose the response written back for a failed parse. -/
def errorToResponse (e : Error) : Response :=
  match e with
  | .headersSectionTooLong =>
    Response.error_response .requestHeaderFieldsTooLarge "Headers too long."
  | .headerTooLong =>
    Response.error_response .requestHeaderFieldsTooLarge "A header is too long."
  | .startLineExceedsMaxLength =>
    Response.error_response .uriTooLong "The target in the start line is too long."
  | e => Response.error_response .badRequest (errorDescription e)

/-- The status the spec assigns to each parse error: 431 for the two
header-limit errors, 414 for the start-line limit, 400 for everything
else. Stated from the words of the spec, for comparison with
`errorToResponse`. -/
def specErrorStatus (e : Error) : Nat :=
  match e with
  | .headersSectionTooLong => 431
  | .headerTooLong => 431
  | .startLineExceedsMaxLength => 414
  | _ => 400

/-!
The tunnel proxy handler (src/giphy_proxy/src/lib.rs). `handle_proxy`
first validates, then resolves and dials. The validation prefix is pure;
its result is either an error `Response` returned to the server (no DNS
lookup and no dial happen on that path — the function returns at once) or
the `Authority` carried into the resolve/dial stage.
-/

/-- The port test of handle_proxy (lib.rs lines 54-62): a present port
other than 443 is rejected; an absent port passes this check. -/
def portInvalid : Option Nat → Bool
  | some p => decide (p ≠ 443)
  | none => false

/-- What `handle_proxy` does before any network activity. -/
inductive ProxyStep
  | respond (r : Response)
  | dialTo (addr : String)
deriving DecidableEq

/-- The validation sequence of `handle_proxy` (lib.rs lines 38-74): a
non-CONNECT method gets 405; a non-Authority target gets 400 Invalid
proxy target; a present port other than 443 gets 400 Invalid port; a
domain other than api.giphy.com, or an absent port, gets 400 Invalid
proxy target; otherwise the handler proceeds to resolve and dial
`domain:port`. Only `dialTo` reaches the DNS lookup and the dial. -/
def handle_proxy (req : Request) : ProxyStep :=
  if req.start_line.method ≠ Method.CONNECT then
    .respond (Response.error_response .methodNotAllowed "")
  else
    match req.start_line.target with
    | .authority a =>
      if portInvalid a.port then
        .respond (Response.error_response .badRequest "Invalid port. Must use 443")
      else if a.domain ≠ "api.giphy.com" ∨ a.port = none then
        .respond (Response.error_response .badRequest "Invalid proxy target")
      else
        .dialTo (a.domain ++ ":" ++ toString ((a.port).getD 0))
    | _ => .respond (Response.error_response .badRequest "Invalid proxy target")

/-- The bytes `handle_proxy` writes to the client once the upstream dial
succeeds (lib.rs lines 100-101): `error_response(Status::Ok, "")` sent
through `write_to_stream`. -/
def tunnelEstablishedBytes : List Nat :=
  (Response.error_response .ok "").write_to_stream

/-- One result of `s1.read` in `stream_copy`: either an IO error or the
bytes read (the empty list models a zero-byte read). -/
inductive ReadEvent
  | bytes (data : List Nat)
  | readErr
deriving DecidableEq

/-- One result of `s2.write_all` in `stream_copy`. -/
inductive WriteResult
  | wrOk
  | wrErr
deriving DecidableEq

/-- `stream_copy` (lib.rs lines 120-151) over a trace of read results and
write outcomes. Returns the chunks handed to `write_all` in order, and
the chunks the destination actually accepted. A zero-byte read or a read
error breaks the loop; a write error is logged and the loop continues —
the source has no break in the write-error arm (lib.rs lines 136-141).
Each write attempt carries exactly the bytes read
(`buf.split_at(bytes_read)`). -/
def stream_copy : List ReadEvent → List WriteResult →
    List (List Nat) × List (List Nat)
  | [], _ => ([], [])
  | .readErr :: _, _ => ([], [])
  | .bytes [] :: _, _ => ([], [])
  | .bytes d :: rest, ws =>
    match ws with
    | [] =>
      let r := stream_copy rest []
      (d :: r.1, d :: r.2)
    | .wrOk :: ws2 =>
      let r := stream_copy rest ws2
      (d :: r.1, d :: r.2)
    | .wrErr :: ws2 =>
      let r := stream_copy rest ws2
      (d :: r.1, r.2)

/-- The nonempty chunks a read trace yields before its first zero-byte
read or read error: what the copy loop reads regardless of how writes
fare. -/
def readChunksUntilClose : List ReadEvent → List (List Nat)
  | [] => []
  | .readErr :: _ => []
  | .bytes [] :: _ => []
  | .bytes d :: rest => d :: readChunksUntilClose rest

/-!
Theorems.
-/

set_option maxRecDepth 100000

/-- The nine literal verb strings. -/
def methodLiterals : List String :=
  ["GET", "POST", "PUT", "HEAD", "DELETE", "CONNECT", "OPTIONS", "TRACE", "PATCH"]

/-- The three literal version strings. -/
def versionLiterals : List String :=
  ["HTTP/1.0", "HTTP/1.1", "HTTP/2.0"]

/-- Claim C9: for all 9 methods and all 3 HTTP versions, parse and format
are exact literal inverses — parse (format x) = ok x for every value,
format (parse s) = s for every literal string — and any other string
fails with InvalidMethod carrying the input, respectively
InvalidHttpVersion. -/
theorem method_version_literal_inverses :
    (∀ m : Method, Method.parse (Method.format m) = .ok m) ∧
    (∀ v : HttpVersion, HttpVersion.parse (HttpVersion.format v) = .ok v) ∧
    (∀ s, s ∈ methodLiterals → (Method.parse s).map Method.format = .ok s) ∧
    (∀ s, s ∈ versionLiterals →
      (HttpVersion.parse s).map HttpVersion.format = .ok s) ∧
    (∀ s, s ∉ methodLiterals → Method.parse s = .error (.invalidMethod s)) ∧
    (∀ s, s ∉ versionLiterals → HttpVersion.parse s = .error .invalidHttpVersion) := by
  refine ⟨fun m => ?_, fun v => ?_, fun s hs => ?_, fun s hs => ?_,
    fun s hs => ?_, fun s hs => ?_⟩
  · cases m <;> rfl
  · cases v <;> rfl
  · simp only [methodLiterals, List.mem_cons, List.not_mem_nil, or_false] at hs
    rcases hs with rfl | rfl | rfl | rfl | rfl | rfl | rfl | rfl | rfl <;> rfl
  · simp only [versionLiterals, List.mem_cons, List.not_mem_nil, or_false] at hs
    rcases hs with rfl | rfl | rfl <;> rfl
  · simp only [methodLiterals, List.mem_cons, List.not_mem_nil, or_false,
      not_or] at hs
    obtain ⟨h1, h2, h3, h4, h5, h6, h7, h8, h9⟩ := hs
    simp [Method.parse, h1, h2, h3, h4, h5, h6, h7, h8, h9]
  · simp only [versionLiterals, List.mem_cons, List.not_mem_nil, or_false,
      not_or] at hs
    obtain ⟨h1, h2, h3⟩ := hs
    simp [HttpVersion.parse, h1, h2, h3]

/-- Witness for C9 at concrete inputs. -/
theorem method_version_literal_inverses_witness :
    (Method.parse "CONNECT").map Method.format = .ok "CONNECT" ∧
    Method.parse "get" = .error (.invalidMethod "get") ∧
    HttpVersion.parse "HTTP/1.2" = .error .invalidHttpVersion :=
  ⟨method_version_literal_inverses.2.2.1 "CONNECT" (by decide),
   method_version_literal_inverses.2.2.2.2.1 "get" (by decide),
   method_version_literal_inverses.2.2.2.2.2 "HTTP/1.2" (by decide)⟩

/-- Counterexample to claim C4: a value containing a further colon is not
kept whole — the text after the second colon is dropped. -/
theorem parse_header_truncates_at_second_colon :
    Headers.parse_header "Host: a.b:443" ≠ .ok ("Host", "a.b:443") := by
  decide

/-- Claim C4 as amended: parse_header splits on every colon and keeps the
first two fields only — the key is the text before the first colon, the
value is the text between the first and the second colon, anything after
a second colon is discarded — it fails with InvalidHeader exactly when no
colon is present or the first or second field is empty before trimming,
and it trims whitespace from both retained fields; so ":", "a:" and
"key-only" fail, "  a : b" yields ("a","b"), and "Host: a.b:443" yields
("Host","a.b"). -/
theorem parse_header_first_two_fields :
    Headers.parse_header ":" = .error .invalidHeader ∧
    Headers.parse_header "  a : b" = .ok ("a", "b") ∧
    Headers.parse_header "a:" = .error .invalidHeader ∧
    Headers.parse_header "key-only" = .error .invalidHeader ∧
    Headers.parse_header "Host: a.b:443" = .ok ("Host", "a.b") ∧
    (∀ s k v r, splitOnChar ':' s = k :: v :: r → k ≠ "" → v ≠ "" →
      Headers.parse_header s = .ok (trimAscii k, trimAscii v)) ∧
    (∀ s k v r, splitOnChar ':' s = k :: v :: r → (k = "" ∨ v = "") →
      Headers.parse_header s = .error .invalidHeader) ∧
    (∀ s h, splitOnChar ':' s = [h] →
      Headers.parse_header s = .error .invalidHeader) := by
  refine ⟨by decide, by decide, by decide, by decide, by decide,
    fun s k v r hsplit hk hv => ?_, fun s k v r hsplit hkv => ?_,
    fun s h hsplit => ?_⟩
  · unfold Headers.parse_header
    rw [hsplit]
    simp [hk, hv]
  · unfold Headers.parse_header
    rw [hsplit]
    simp [hkv]
  · unfold Headers.parse_header
    rw [hsplit]

/-- Witness for the amended C4 at a concrete input. -/
theorem parse_header_first_two_fields_witness :
    Headers.parse_header "x: y :z" = .ok (trimAscii "x", trimAscii " y ") :=
  parse_header_first_two_fields.2.2.2.2.2.1 "x: y :z" "x" " y " ["z"]
    (by decide) (by decide) (by decide)

/-- Counterexample to claim C3: the bytes written after a successful dial
are not the bare status line plus blank line. -/
theorem tunnel_established_not_bare :
    tunnelEstablishedBytes ≠ strBytes "HTTP/1.1 200 OK\r\n\r\n" := by
  decide

/-- Claim C3 as amended: after a validated CONNECT and a successful dial,
the bytes written to the client before relaying are exactly
"HTTP/1.1 200 OK\r\nContent-length:0\r\n\r\n": the status line, one
Content-length:0 header, and the blank line, with no body bytes. -/
theorem tunnel_established_exact_bytes :
    tunnelEstablishedBytes =
      strBytes "HTTP/1.1 200 OK\r\nContent-length:0\r\n\r\n" := by
  decide

/-- Claim C10: a CONNECT whose target is the allow-listed domain with no
port is rejected with 400 Invalid proxy target before any DNS lookup or
dial, whatever the version and headers of the request. -/
theorem proxy_missing_port_rejected :
    ∀ (v : HttpVersion) (hs : List (String × String)),
      handle_proxy ⟨⟨.CONNECT, .authority ⟨"api.giphy.com", none⟩, v⟩, hs⟩ =
        .respond (Response.error_response .badRequest "Invalid proxy target") := by
  intro v hs
  rfl

/-- Claim C5: the server maps every parse failure to exactly the status
the spec gives — 431 for HeadersSectionTooLong and HeaderTooLong, 414 for
StartLineExceedsMaxLength, 400 for every other parse error — and on the
400 path the body of the written response is the description of the
error. -/
theorem server_error_mapping :
    ∀ e : Error,
      (errorToResponse e).status.to_u16 = specErrorStatus e ∧
      (specErrorStatus e = 400 →
        (errorToResponse e).status = .badRequest ∧
        (errorToResponse e).body = strBytes (errorDescription e)) := by
  intro e
  cases e <;>
    simp [errorToResponse, specErrorStatus, Status.to_u16, Response.error_response]

/-- Witness for C5 at a framing error. -/
theorem server_error_mapping_witness :
    (errorToResponse Error.unexpectedCR).status.to_u16 =
        specErrorStatus Error.unexpectedCR ∧
      (errorToResponse Error.unexpectedCR).status = .badRequest ∧
      (errorToResponse Error.unexpectedCR).body =
        strBytes (errorDescription Error.unexpectedCR) :=
  ⟨(server_error_mapping Error.unexpectedCR).1,
   (server_error_mapping Error.unexpectedCR).2 (by decide)⟩

/-- Claim C6: the tunnel handler validates in a fixed, mutually exclusive
order — non-CONNECT gets 405; a non-Authority target gets 400 Invalid
proxy target; a present port other than 443 gets 400 Invalid port. Must
use 443; past those checks, a domain other than api.giphy.com gets 400
Invalid proxy target — and each failure is a `respond` step, so the
handler returns before the DNS lookup and the dial. -/
theorem proxy_validation_sequence :
    (∀ req : Request, req.start_line.method ≠ .CONNECT →
      handle_proxy req = .respond (Response.error_response .methodNotAllowed "")) ∧
    (∀ req : Request, req.start_line.method = .CONNECT →
      (∀ a, req.start_line.target ≠ .authority a) →
      handle_proxy req =
        .respond (Response.error_response .badRequest "Invalid proxy target")) ∧
    (∀ (req : Request) (a : Authority) (p : Nat),
      req.start_line.method = .CONNECT →
      req.start_line.target = .authority a →
      a.port = some p → p ≠ 443 →
      handle_proxy req =
        .respond (Response.error_response .badRequest "Invalid port. Must use 443")) ∧
    (∀ (req : Request) (a : Authority),
      req.start_line.method = .CONNECT →
      req.start_line.target = .authority a →
      (a.port = some 443 ∨ a.port = none) →
      a.domain ≠ "api.giphy.com" →
      handle_proxy req =
        .respond (Response.error_response .badRequest "Invalid proxy target")) := by
  refine ⟨fun req h => ?_, fun req h1 h2 => ?_,
    fun req a p h1 h2 h3 h4 => ?_, fun req a h1 h2 h3 h4 => ?_⟩
  · simp [handle_proxy, h]
  · cases ht : req.start_line.target with
    | authority a => exact absurd ht (h2 a)
    | path s => simp [handle_proxy, h1, ht]
    | url u => simp [handle_proxy, h1, ht]
    | glob => simp [handle_proxy, h1, ht]
  · simp [handle_proxy, h1, h2, portInvalid, h3, h4]
  · rcases h3 with h3 | h3 <;>
      simp [handle_proxy, h1, h2, portInvalid, h3, h4]

/-- Witness for C6: one concrete request per validation row. -/
theorem proxy_validation_sequence_witness :
    handle_proxy ⟨⟨.GET, .path "/", .http1_1⟩, []⟩ =
        .respond (Response.error_response .methodNotAllowed "") ∧
      handle_proxy ⟨⟨.CONNECT, .path "/", .http1_1⟩, []⟩ =
        .respond (Response.error_response .badRequest "Invalid proxy target") ∧
      handle_proxy ⟨⟨.CONNECT, .authority ⟨"api.giphy.com", some 80⟩, .http1_1⟩, []⟩ =
        .respond (Response.error_response .badRequest "Invalid port. Must use 443") ∧
      handle_proxy ⟨⟨.CONNECT, .authority ⟨"evil.example", some 443⟩, .http1_1⟩, []⟩ =
        .respond (Response.error_response .badRequest "Invalid proxy target") :=
  ⟨proxy_validation_sequence.1 ⟨⟨.GET, .path "/", .http1_1⟩, []⟩ (by decide),
   proxy_validation_sequence.2.1 ⟨⟨.CONNECT, .path "/", .http1_1⟩, []⟩
     (by decide) (by intro a; simp),
   proxy_validation_sequence.2.2.1
     ⟨⟨.CONNECT, .authority ⟨"api.giphy.com", some 80⟩, .http1_1⟩, []⟩
     ⟨"api.giphy.com", some 80⟩ 80 (by decide) (by decide) (by decide) (by decide),
   proxy_validation_sequence.2.2.2
     ⟨⟨.CONNECT, .authority ⟨"evil.example", some 443⟩, .http1_1⟩, []⟩
     ⟨"evil.example", some 443⟩ (by decide) (by decide) (Or.inl (by decide))
     (by decide)⟩

/-- The response the fixed-body 200 handler of the source builds
(server.rs test, lines 163-178): status 200, one Content-length header,
the twelve-byte body. -/
def scenario3Response : Response :=
  ⟨.ok, .http1_1, [("Content-length", "12")], strBytes "Hello world."⟩

/-- Claim C2 is a code bug: write_to_stream writes each 128-byte read
buffer whole (`s.write(&data)` at response.rs line 52) instead of only
the bytes the body read yielded, so the fixed-body 200 response goes out
as the exact claimed bytes followed by 116 zero bytes of buffer padding —
not as exactly the status line, headers, blank line and body. -/
theorem response_writer_pads_final_chunk :
    scenario3Response.write_to_stream =
        strBytes "HTTP/1.1 200 OK\r\nContent-length:12\r\n\r\nHello world." ++
          List.replicate 116 0 ∧
      scenario3Response.write_to_stream ≠
        strBytes "HTTP/1.1 200 OK\r\nContent-length:12\r\n\r\nHello world." := by
  decide

/-- Options with a 10-byte headers-section budget and an 8-byte per-header
limit, for exercising the section counter. -/
def optsC1 : ParseOptions := ⟨20, 10, 8, 100⟩

/-- A request whose three header lines have raw lengths 4 + 4 + 4 = 12,
exceeding the 10-byte section budget of `optsC1` while each line stays
under the 8-byte per-header limit. -/
def inputC1 : List Nat := strBytes "GET / HTTP/1.1\na: x\nb: x\nc: x\n\n"

/-- Claim C1 is a code bug: the cumulative raw length of the header lines
of `inputC1` exceeds the section budget, so the claim (and the spec)
require HeadersSectionTooLong, yet the parse succeeds — the counter
carried in the ParsingHeaders state is passed through unchanged at
request.rs line 288, so the budget only ever sees the current line. -/
theorem headers_section_budget_not_cumulative :
    optsC1.max_headers_section_len < 4 + 4 + 4 ∧
      Request.parse upNone optsC1 inputC1 =
        .ok ⟨⟨.GET, .path "/", .http1_1⟩, [("a", "x"), ("b", "x"), ("c", "x")]⟩ := by
  decide

/-- Counterexample to claim C7: a write error does not terminate the copy
loop. After the write of the first chunk fails, the loop keeps reading
and the second chunk still reaches the destination; under the claim the
direction would have ended and nothing more could be delivered. -/
theorem stream_copy_write_error_not_terminal :
    (stream_copy [.bytes [1], .bytes [2], .bytes []] [.wrErr, .wrOk]).2 = [[2]] ∧
      ([[2]] : List (List Nat)) ≠ [] := by
  decide

/-- Claim C7 as amended: in each relay direction a zero-byte read is an
orderly close ending the direction and a read error logs and ends it;
every chunk read before that point is handed to the destination in full,
in order; a write error is only logged — it does not end the direction,
and the sequence of write attempts is independent of how earlier writes
fared. -/
theorem stream_copy_reads_independent_of_writes :
    ∀ (reads : List ReadEvent) (writes : List WriteResult),
      (stream_copy reads writes).1 = readChunksUntilClose reads := by
  intro reads
  induction reads with
  | nil => intro writes; rfl
  | cons r rest ih =>
    intro writes
    cases r with
    | readErr => rfl
    | bytes d =>
      cases d with
      | nil => rfl
      | cons b bs =>
        cases writes with
        | nil => simp [stream_copy, readChunksUntilClose, ih]
        | cons w ws2 =>
          cases w <;> simp [stream_copy, readChunksUntilClose, ih]

/-- A byte the parser accumulates into the current line: ASCII and not a
line terminator. -/
def plainByte (x : Nat) : Prop := x < 128 ∧ x ≠ 13 ∧ x ≠ 10

instance (x : Nat) : Decidable (plainByte x) := by
  unfold plainByte
  infer_instance

/-- When the limit check fires, the next byte read stops the loop with
that error, whatever the byte is. -/
theorem parseLoop_limit_stop (up : String → Option UrlData)
    (opts : ParseOptions) (state : RPState) (cur : List Nat) (e : Error)
    (b : Nat) (rest : List Nat)
    (h : limitCheck opts state cur = some e) :
    Request.parseLoop up opts state cur (b :: rest) = .error e := by
  cases rest <;> simp [Request.parseLoop, h]

/-- A plain byte that passes the limit check is appended to the current
line. -/
theorem parseLoop_plain_step (up : String → Option UrlData)
    (opts : ParseOptions) (state : RPState) (cur : List Nat)
    (b : Nat) (rest : List Nat)
    (h : limitCheck opts state cur = none)
    (h128 : ¬ (b ≥ 128)) (h13 : b ≠ 13) (h10 : b ≠ 10) :
    Request.parseLoop up opts state cur (b :: rest) =
      Request.parseLoop up opts state (cur ++ [b]) rest := by
  cases rest <;> simp [Request.parseLoop, h, h128, h13, h10]

/-- A bare LF that passes the limit check hands the accumulated line to
`stepLine`. -/
theorem parseLoop_lf_step (up : String → Option UrlData)
    (opts : ParseOptions) (state : RPState) (cur : List Nat)
    (rest : List Nat)
    (h : limitCheck opts state cur = none) :
    Request.parseLoop up opts state cur (10 :: rest) =
      (match stepLine up state cur with
       | .fail e => .error e
       | .done r => .ok r
       | .next st => Request.parseLoop up opts st [] rest) := by
  cases rest <;> simp [Request.parseLoop, h]

/-- While the start line is still open, once the accumulated line holds
one byte more than the start-line bound, the very next byte read makes
the loop fail with StartLineExceedsMaxLength, whatever that byte is. -/
theorem parseLoop_start_overflow (up : String → Option UrlData)
    (opts : ParseOptions) :
    ∀ (pre cur : List Nat) (b : Nat) (data : List Nat),
      cur.length + pre.length = opts.max_start_line_len + 1 →
      (∀ x ∈ pre, plainByte x) →
      Request.parseLoop up opts .parseStartLine cur (pre ++ b :: data) =
        .error .startLineExceedsMaxLength := by
  intro pre
  induction pre with
  | nil =>
    intro cur b data hlen _
    have hgt : cur.length > opts.max_start_line_len := by
      simp at hlen; omega
    have hsome : limitCheck opts .parseStartLine cur =
        some .startLineExceedsMaxLength := by
      simp [limitCheck, hgt]
    simp only [List.nil_append]
    exact parseLoop_limit_stop up opts _ cur _ b data hsome
  | cons p pre2 ih =>
    intro cur b data hlen hok
    obtain ⟨h128, h13, h10⟩ := hok p (by simp)
    have hok2 : ∀ x ∈ pre2, plainByte x := fun x hx => hok x (by simp [hx])
    have hle : ¬ (cur.length > opts.max_start_line_len) := by
      simp at hlen; omega
    have hnone : limitCheck opts .parseStartLine cur = none := by
      simp [limitCheck, hle]
    simp only [List.cons_append]
    rw [parseLoop_plain_step up opts _ cur p _ hnone (by omega) h13 h10]
    exact ih (cur ++ [p]) b data (by simp at hlen ⊢; omega) hok2

/-- While a header line is still open, once the accumulated line holds
one byte more than the per-header bound — and the section budget still
has room for it — the very next byte read makes the loop fail with
HeaderTooLong, whatever that byte is. -/
theorem parseLoop_header_overflow (up : String → Option UrlData)
    (opts : ParseOptions) (size : Nat) (sl : StartLine)
    (hs : List (String × String)) :
    ∀ (pre cur : List Nat) (b : Nat) (data : List Nat),
      cur.length + pre.length = opts.max_header_len + 1 →
      size + opts.max_header_len + 1 ≤ opts.max_headers_section_len →
      (∀ x ∈ pre, plainByte x) →
      Request.parseLoop up opts (.parseHeaders size sl hs) cur
          (pre ++ b :: data) =
        .error .headerTooLong := by
  intro pre
  induction pre with
  | nil =>
    intro cur b data hlen hbudget _
    have hgt : cur.length > opts.max_header_len := by simp at hlen; omega
    have hsec : ¬ (opts.max_headers_section_len < size + cur.length) := by
      simp at hlen; omega
    have hsome : limitCheck opts (.parseHeaders size sl hs) cur =
        some .headerTooLong := by
      simp [limitCheck, hgt, hsec]
    simp only [List.nil_append]
    exact parseLoop_limit_stop up opts _ cur _ b data hsome
  | cons p pre2 ih =>
    intro cur b data hlen hbudget hok
    obtain ⟨h128, h13, h10⟩ := hok p (by simp)
    have hok2 : ∀ x ∈ pre2, plainByte x := fun x hx => hok x (by simp [hx])
    have hle : ¬ (cur.length > opts.max_header_len) := by simp at hlen; omega
    have hsec : ¬ (opts.max_headers_section_len < size + cur.length) := by
      simp at hlen; omega
    have hnone : limitCheck opts (.parseHeaders size sl hs) cur = none := by
      simp [limitCheck, hle, hsec]
    simp only [List.cons_append]
    rw [parseLoop_plain_step up opts _ cur p _ hnone (by omega) h13 h10]
    exact ih (cur ++ [p]) b data (by simp at hlen ⊢; omega) hbudget hok2

/-- Consuming a terminated line in the start-line state: as long as the
line stays within the start-line bound, the loop accumulates its plain
bytes, and on the LF hands the whole line to `stepLine`. -/
theorem parseLoop_start_consume (up : String → Option UrlData)
    (opts : ParseOptions) :
    ∀ (pre cur : List Nat) (rest : List Nat),
      (∀ x ∈ pre, plainByte x) →
      cur.length + pre.length ≤ opts.max_start_line_len →
      Request.parseLoop up opts .parseStartLine cur (pre ++ 10 :: rest) =
        (match stepLine up .parseStartLine (cur ++ pre) with
         | .fail e => .error e
         | .done r => .ok r
         | .next st => Request.parseLoop up opts st [] rest) := by
  intro pre
  induction pre with
  | nil =>
    intro cur rest _ hlen
    have hle : ¬ (cur.length > opts.max_start_line_len) := by
      simp at hlen; omega
    have hnone : limitCheck opts .parseStartLine cur = none := by
      simp [limitCheck, hle]
    simp only [List.nil_append, List.append_nil]
    exact parseLoop_lf_step up opts _ cur rest hnone
  | cons p pre2 ih =>
    intro cur rest hok hlen
    obtain ⟨h128, h13, h10⟩ := hok p (by simp)
    have hok2 : ∀ x ∈ pre2, plainByte x := fun x hx => hok x (by simp [hx])
    have hle : ¬ (cur.length > opts.max_start_line_len) := by
      simp at hlen; omega
    have hnone : limitCheck opts .parseStartLine cur = none := by
      simp [limitCheck, hle]
    simp only [List.cons_append]
    rw [parseLoop_plain_step up opts _ cur p _ hnone (by omega) h13 h10]
    rw [ih (cur ++ [p]) rest hok2 (by simp at hlen ⊢; omega)]
    simp

/-- Claim C8: under every ParseOptions and whatever the stream holds, a
start line longer than max_start_line_len (= max_target_len + 7 + 2 + 8)
fails with StartLineExceedsMaxLength as soon as one byte beyond the bound
plus one more byte have been read — the check runs before the byte is
appended, so the error fires whatever that next byte is, terminator
included — and after any accepted start line, a header line exceeding
max_header_len fails with HeaderTooLong provided the section budget
still admits the line. -/
theorem start_line_and_header_limits :
    (∀ (up : String → Option UrlData) (opts : ParseOptions)
        (pre : List Nat) (b : Nat) (data : List Nat),
      pre.length = opts.max_start_line_len + 1 →
      (∀ x ∈ pre, plainByte x) →
      Request.parse up opts (pre ++ b :: data) =
        .error .startLineExceedsMaxLength) ∧
    (∀ (up : String → Option UrlData) (opts : ParseOptions)
        (slLine : List Nat) (sl : StartLine) (pre : List Nat) (b : Nat)
        (data : List Nat),
      (∀ x ∈ slLine, plainByte x) →
      slLine.length ≤ opts.max_start_line_len →
      StartLine.parse up (lineToString slLine) = .ok sl →
      pre.length = opts.max_header_len + 1 →
      opts.max_header_len + 1 ≤ opts.max_headers_section_len →
      (∀ x ∈ pre, plainByte x) →
      Request.parse up opts (slLine ++ 10 :: (pre ++ b :: data)) =
        .error .headerTooLong) := by
  constructor
  · intro up opts pre b data hlen hok
    exact parseLoop_start_overflow up opts pre [] b data (by simpa) hok
  · intro up opts slLine sl pre b data hsok hsl hparse hlen hbudget hok
    unfold Request.parse
    rw [parseLoop_start_consume up opts slLine [] (pre ++ b :: data) hsok
      (by simpa)]
    simp only [List.nil_append, stepLine, hparse]
    exact parseLoop_header_overflow up opts 0 sl [] pre [] b data
      (by simpa) (by omega) hok

/-- Witness for C8: a 21-byte start line against a 20-byte bound, and a
3-byte header line against a 2-byte per-header limit inside a 10-byte
section budget. -/
theorem start_line_and_header_limits_witness :
    Request.parse upNone ⟨3, 100, 8, 0⟩
        (List.replicate 21 65 ++ 65 :: []) =
      .error .startLineExceedsMaxLength ∧
    Request.parse upNone ⟨10, 10, 2, 0⟩
        (strBytes "GET / HTTP/1.1" ++ 10 :: (strBytes "abc" ++ 97 :: [])) =
      .error .headerTooLong :=
  ⟨start_line_and_header_limits.1 upNone ⟨3, 100, 8, 0⟩
     (List.replicate 21 65) 65 [] (by decide) (by decide),
   start_line_and_header_limits.2 upNone ⟨10, 10, 2, 0⟩
     (strBytes "GET / HTTP/1.1") ⟨.GET, .path "/", .http1_1⟩
     (strBytes "abc") 97 [] (by decide) (by decide) (by decide) (by decide)
     (by decide) (by decide)⟩

end GiphyProxy
